import Mathlib

/-!
Verification of the boatpower energy-budget calculator.

The numeric semantics of the source (`src/script.js`, `src/reports.js`) is
embedded shallowly over `ℚ`.  JavaScript numeric fields become rationals;
fields that a persisted snapshot may omit become `Option ℚ` (JS destructuring
defaults / `||` fallbacks are made explicit).  Where the behaviour of a
JavaScript division by zero matters, a small `JsNum` model with signed
infinities and NaN is used instead of plain `ℚ`.
-/

namespace BoatPower

/-- Electrical type of a load row: DC, or AC routed through the inverter. -/
inductive LoadType where
  | DC : LoadType
  | AC : LoadType
deriving DecidableEq

/-- Entry mode of a load row: the `value` field is watts or amps. -/
inductive EntryMode where
  | W : EntryMode
  | A : EntryMode
deriving DecidableEq

/-- A load row (`addRow` in src/script.js).  `name` and `category` are labels
only and do not affect energy, so they are omitted. -/
structure Row where
  type : LoadType
  entry : EntryMode
  value : ℚ
  hAnchor : ℚ
  hSail : ℚ
  duty : ℚ
  qty : ℚ
deriving DecidableEq

/-- The settings object built at the top of `recalc` (src/script.js:650-659).
`days` is `Math.max(1, Math.round(...))`, an integer. -/
structure Settings where
  voltage : ℚ
  dod : ℚ
  reserve : ℚ
  days : ℕ
  invEff : ℚ
  invStandby : ℚ
  derate : ℚ
deriving DecidableEq

/-- The ranges `recalc` clamps the settings into (src/script.js:650-659),
together with the data-model requirement `voltage > 0` (the voltage input is a
fixed 12/24/48 selector and is not clamped in code). -/
def Settings.Clamped (s : Settings) : Prop :=
  0 < s.voltage ∧
  10 ≤ s.dod ∧ s.dod ≤ 99 ∧
  0 ≤ s.reserve ∧ s.reserve ≤ 100 ∧
  1 ≤ s.days ∧
  50 ≤ s.invEff ∧ s.invEff ≤ 100 ∧
  0 ≤ s.invStandby ∧
  0 ≤ s.derate ∧ s.derate ≤ 80

instance (s : Settings) : Decidable s.Clamped := by
  unfold Settings.Clamped
  infer_instance

/-- `rowWh(r, hours, duty, qty)` from src/script.js:814-826.  `duty` is already
a fraction and `qty` a count, exactly as at the call sites in `recalc`.  The
JS `x || 0` coercions are identities on rational fields. -/
def rowWh (s : Settings) (r : Row) (hours duty qty : ℚ) : ℚ :=
  let eff : ℚ := s.invEff / 100
  let h : ℚ := max 0 hours * max 0 duty * qty
  if h ≤ 0 then 0
  else if r.type = LoadType.AC then
    if r.entry = EntryMode.W then r.value * h / eff else r.value * 120 * h / eff
  else
    if r.entry = EntryMode.W then r.value * h else r.value * s.voltage * h

/-- Per-row anchor-regime energy as `recalc` invokes `rowWh`
(src/script.js:670-672). -/
def rowWhAnchor (s : Settings) (r : Row) : ℚ :=
  rowWh s r r.hAnchor (r.duty / 100) r.qty

/-- Per-row underway-regime energy as `recalc` invokes `rowWh`
(src/script.js:670-673). -/
def rowWhSail (s : Settings) (r : Row) : ℚ :=
  rowWh s r r.hSail (r.duty / 100) r.qty

/-- One step of the `acAnchorHours = Math.max(acAnchorHours, r.hAnchor || 0)`
update inside the loads loop of `recalc` (src/script.js:674-677). -/
def acAnchorStep (acc : ℚ) (r : Row) : ℚ :=
  if r.type = LoadType.AC then max acc r.hAnchor else acc

/-- One step of the `acSailHours = Math.max(acSailHours, r.hSail || 0)` update
inside the loads loop of `recalc` (src/script.js:674-677). -/
def acSailStep (acc : ℚ) (r : Row) : ℚ :=
  if r.type = LoadType.AC then max acc r.hSail else acc

/-- Final value of `acAnchorHours` after the loads loop, starting from 0. -/
def acAnchorHoursOf (rows : List Row) : ℚ :=
  rows.foldl acAnchorStep 0

/-- Final value of `acSailHours` after the loads loop, starting from 0. -/
def acSailHoursOf (rows : List Row) : ℚ :=
  rows.foldl acSailStep 0

/-- `standbyWhDay = settings.invStandby * (acAnchorHours + acSailHours)`
(src/script.js:682-683). -/
def standbyWhDay (s : Settings) (rows : List Row) : ℚ :=
  s.invStandby * (acAnchorHoursOf rows + acSailHoursOf rows)

/-- `anchorWh`: sum of per-row anchor energies (src/script.js:664-680). -/
def anchorWh (s : Settings) (rows : List Row) : ℚ :=
  (rows.map (rowWhAnchor s)).sum

/-- `sailWh`: sum of per-row underway energies (src/script.js:664-680). -/
def sailWh (s : Settings) (rows : List Row) : ℚ :=
  (rows.map (rowWhSail s)).sum

/-- `whDayTotal = anchorWh + sailWh + standbyWhDay` (src/script.js:685). -/
def whDayTotal (s : Settings) (rows : List Row) : ℚ :=
  anchorWh s rows + sailWh s rows + standbyWhDay s rows

/-- `ahDayTotal = whDayTotal / settings.voltage` (src/script.js:686). -/
def ahDayTotal (s : Settings) (rows : List Row) : ℚ :=
  whDayTotal s rows / s.voltage

/-- `tripWh = whDayTotal * settings.days` (src/script.js:699). -/
def tripWh (s : Settings) (rows : List Row) : ℚ :=
  whDayTotal s rows * (s.days : ℚ)

/-- `tripAh = ahDayTotal * settings.days` (src/script.js:700). -/
def tripAh (s : Settings) (rows : List Row) : ℚ :=
  ahDayTotal s rows * (s.days : ℚ)

/-- `withReserveAh = tripAh * (1 + settings.reserve / 100)`
(src/script.js:704). -/
def withReserveAh (s : Settings) (rows : List Row) : ℚ :=
  tripAh s rows * (1 + s.reserve / 100)

/-- `nameplateAh = withReserveAh / usableDoD`, further divided by
`1 - derate / 100` when `derate > 0` (src/script.js:703-708). -/
def nameplateAh (s : Settings) (rows : List Row) : ℚ :=
  let base := withReserveAh s rows / (s.dod / 100)
  if 0 < s.derate then base / (1 - s.derate / 100) else base

/-- `withReserveWh = withReserveAh * settings.voltage` (src/script.js:709). -/
def withReserveWh (s : Settings) (rows : List Row) : ℚ :=
  withReserveAh s rows * s.voltage

/-- `nameplateWh = nameplateAh * settings.voltage` (src/script.js:710). -/
def nameplateWh (s : Settings) (rows : List Row) : ℚ :=
  nameplateAh s rows * s.voltage

/-- `modules100 = Math.max(1, Math.ceil(nameplateAh / 100))`
(src/script.js:711). -/
def modules100 (s : Settings) (rows : List Row) : ℤ :=
  max 1 ⌈nameplateAh s rows / 100⌉

/-- Kind of a generation source; `Unknown` stands for any other type string,
for which `genEntryWh` returns 0. -/
inductive GenType where
  | Solar : GenType
  | Wind : GenType
  | Alternator : GenType
  | ACCharger : GenType
  | Unknown : GenType
deriving DecidableEq

/-- A generation-source entry.  Numeric fields are `Option ℚ`: `none` models a
field a snapshot omits (JS `undefined`), which the destructuring defaults in
`genEntryWh` replace per field. -/
structure GenSource where
  type : GenType
  qty : Option ℚ
  hours : Option ℚ
  panelW : Option ℚ
  panels : Option ℚ
  sunHrs : Option ℚ
  deratePct : Option ℚ
  ctrlEffPct : Option ℚ
  ratedW : Option ℚ
  capacityPct : Option ℚ
  dcAmps : Option ℚ
  effPct : Option ℚ
deriving DecidableEq

/-- The `e.qty || 1` fallback at the top of `genEntryWh` (src/script.js:564):
a missing or zero (falsy) quantity is replaced by 1. -/
def qtyOr1 : Option ℚ → ℚ
  | none => 1
  | some q => if q = 0 then 1 else q

/-- `genEntryWh(e, v)` from src/script.js:563-591, with the destructuring
defaults (`panelW = 0`, ..., `ctrlEffPct = 100`, `effPct = 100`, `hours = 0`)
made explicit via `Option.getD`. -/
def genEntryWh (e : GenSource) (v : ℚ) : ℚ :=
  let qty := qtyOr1 e.qty
  match e.type with
  | GenType.Solar =>
      qty * (e.panelW.getD 0 * e.panels.getD 0 * e.sunHrs.getD 0 *
        (1 - e.deratePct.getD 0 / 100) * (e.ctrlEffPct.getD 100 / 100))
  | GenType.Wind =>
      qty * (e.ratedW.getD 0 * (e.capacityPct.getD 0 / 100) * e.hours.getD 0)
  | GenType.Alternator =>
      qty * (e.dcAmps.getD 0 * v * e.hours.getD 0)
  | GenType.ACCharger =>
      qty * (e.dcAmps.getD 0 * v * e.hours.getD 0 * (e.effPct.getD 100 / 100))
  | GenType.Unknown => 0

/-- A labeled per-day series handed to `buildStackedDatasets`
(src/reports.js:289). -/
structure BDItem where
  label : String
  series : List ℚ
deriving DecidableEq

/-- Magnitude of a series: the sum of absolute values across all days, the
`reduce((s, v) => s + Math.abs(+v || 0), 0)` of src/reports.js:290-292. -/
def seriesMag (l : List ℚ) : ℚ :=
  (l.map fun v => |v|).sum

/-- `totalMag = Math.max(1e-9, ...)` (src/reports.js:290). -/
def totalMagOf (totals : List ℚ) : ℚ :=
  max (1 / 1000000000) (seriesMag totals)

/-- The share of one breakdown item: its magnitude over the total magnitude
(src/reports.js:291-293). -/
def shareOf (totals : List ℚ) (b : BDItem) : ℚ :=
  seriesMag b.series / totalMagOf totals

/-- `majors = withShare.filter((x) => x.share >= majorThreshold)`
(src/reports.js:295). -/
def majorsOf (breakdown : List BDItem) (totals : List ℚ) (t : ℚ) : List BDItem :=
  breakdown.filter fun b => decide (t ≤ shareOf totals b)

/-- `minors = withShare.filter((x) => x.share < majorThreshold)`
(src/reports.js:296). -/
def minorsOf (breakdown : List BDItem) (totals : List ℚ) (t : ℚ) : List BDItem :=
  breakdown.filter fun b => decide (shareOf totals b < t)

/-- The element-wise aggregate of the minor contributors, length
`totals.length` (src/reports.js:299-306). -/
def otherSeries (minors : List BDItem) (L : ℕ) : List ℚ :=
  (List.range L).map fun i => (minors.map fun m => m.series.getD i 0).sum

/-- `combined = other ? [...majors, other] : majors` (src/reports.js:298-309):
the emitted stacked entries, an "Other" entry appended exactly when some item
fell below the threshold. -/
def combinedOf (breakdown : List BDItem) (totals : List ℚ) (t : ℚ) : List BDItem :=
  let majors := majorsOf breakdown totals t
  let minors := minorsOf breakdown totals t
  if minors = [] then majors
  else majors ++ [{ label := "Other", series := otherSeries minors totals.length }]

/-- The signed chart data of one emitted entry
(`positive ? (+v || 0) : -Math.abs(+v || 0)`, src/reports.js:312). -/
def stackedData (positive : Bool) (c : BDItem) : List ℚ :=
  c.series.map fun v => if positive then v else -|v|

/-- `+pct.toFixed(1)` (src/reports.js:508): round to one decimal place.  JS
`toFixed` rounds to nearest, ties away from zero; all rounded values here are
nonnegative, where that agrees with `round`. -/
def round1 (x : ℚ) : ℚ :=
  ((round (10 * x) : ℤ) : ℚ) / 10

/-- The SOC loop of `renderSoc` (src/reports.js:503-509): the running level
starts at `bank`, each day adds that day of net, and the emitted percentage is
`Math.max(0, Math.min(100, level / bank * 100))` rounded to one decimal. -/
def socSeriesAux (bank : ℚ) : ℚ → List ℚ → List ℚ
  | _, [] => []
  | level, d :: rest =>
      round1 (max 0 (min 100 ((level + d) / bank * 100))) ::
        socSeriesAux bank (level + d) rest

/-- SOC trajectory for a bank and a per-day net series. -/
def socSeries (bank : ℚ) (net : List ℚ) : List ℚ :=
  socSeriesAux bank bank net

/-- `renderSoc` (src/reports.js:489-509) as a data function: `none` is the
`!(bank > 0)` early return, which shows the "SOC needs a usable bank value"
fallback instead of emitting any SOC values. -/
def renderSoc (bank : ℚ) (net : List ℚ) : Option (List ℚ) :=
  if 0 < bank then some (socSeries bank net) else none

/-- JavaScript double values that occur in the engine, abstracting the finite
ones as exact rationals. -/
inductive JsNum where
  | fin : ℚ → JsNum
  | posInf : JsNum
  | negInf : JsNum
  | nan : JsNum
deriving DecidableEq

/-- JavaScript multiplication on `JsNum` (IEEE 754 rules; the sign of a zero
is not tracked, which the claims never depend on). -/
def jsMul : JsNum → JsNum → JsNum
  | JsNum.nan, _ => JsNum.nan
  | _, JsNum.nan => JsNum.nan
  | JsNum.fin a, JsNum.fin b => JsNum.fin (a * b)
  | JsNum.fin a, JsNum.posInf =>
      if a = 0 then JsNum.nan else if 0 < a then JsNum.posInf else JsNum.negInf
  | JsNum.fin a, JsNum.negInf =>
      if a = 0 then JsNum.nan else if 0 < a then JsNum.negInf else JsNum.posInf
  | JsNum.posInf, JsNum.fin b =>
      if b = 0 then JsNum.nan else if 0 < b then JsNum.posInf else JsNum.negInf
  | JsNum.negInf, JsNum.fin b =>
      if b = 0 then JsNum.nan else if 0 < b then JsNum.negInf else JsNum.posInf
  | JsNum.posInf, JsNum.posInf => JsNum.posInf
  | JsNum.posInf, JsNum.negInf => JsNum.negInf
  | JsNum.negInf, JsNum.posInf => JsNum.negInf
  | JsNum.negInf, JsNum.negInf => JsNum.posInf

/-- JavaScript division on `JsNum`: a nonzero finite value divided by zero is
a signed infinity, `0 / 0` is NaN. -/
def jsDiv : JsNum → JsNum → JsNum
  | JsNum.nan, _ => JsNum.nan
  | _, JsNum.nan => JsNum.nan
  | JsNum.fin a, JsNum.fin b =>
      if b = 0 then
        if a = 0 then JsNum.nan else if 0 < a then JsNum.posInf else JsNum.negInf
      else JsNum.fin (a / b)
  | JsNum.fin _, JsNum.posInf => JsNum.fin 0
  | JsNum.fin _, JsNum.negInf => JsNum.fin 0
  | JsNum.posInf, JsNum.fin b => if 0 ≤ b then JsNum.posInf else JsNum.negInf
  | JsNum.negInf, JsNum.fin b => if 0 ≤ b then JsNum.negInf else JsNum.posInf
  | JsNum.posInf, _ => JsNum.nan
  | JsNum.negInf, _ => JsNum.nan

/-- JavaScript `Math.ceil` on `JsNum`. -/
def jsCeil : JsNum → JsNum
  | JsNum.fin a => JsNum.fin (⌈a⌉ : ℤ)
  | x => x

/-- JavaScript `Math.max` on `JsNum`: NaN if either argument is NaN. -/
def jsMax : JsNum → JsNum → JsNum
  | JsNum.nan, _ => JsNum.nan
  | _, JsNum.nan => JsNum.nan
  | JsNum.posInf, _ => JsNum.posInf
  | _, JsNum.posInf => JsNum.posInf
  | JsNum.negInf, b => b
  | a, JsNum.negInf => a
  | JsNum.fin a, JsNum.fin b => JsNum.fin (max a b)

/-- `ahDayTotal` with JavaScript division semantics: `whDayTotal` is finite
for rational inputs, but the division by `settings.voltage`
(src/script.js:686) is not guarded against zero. -/
def ahDayTotalJs (s : Settings) (rows : List Row) : JsNum :=
  jsDiv (JsNum.fin (whDayTotal s rows)) (JsNum.fin s.voltage)

/-- `tripAh` (src/script.js:700) with JavaScript semantics. -/
def tripAhJs (s : Settings) (rows : List Row) : JsNum :=
  jsMul (ahDayTotalJs s rows) (JsNum.fin (s.days : ℚ))

/-- `withReserveAh` (src/script.js:704) with JavaScript semantics. -/
def withReserveAhJs (s : Settings) (rows : List Row) : JsNum :=
  jsMul (tripAhJs s rows) (JsNum.fin (1 + s.reserve / 100))

/-- `nameplateAh` (src/script.js:703-708) with JavaScript semantics. -/
def nameplateAhJs (s : Settings) (rows : List Row) : JsNum :=
  let base := jsDiv (withReserveAhJs s rows) (JsNum.fin (s.dod / 100))
  if 0 < s.derate then jsDiv base (JsNum.fin (1 - s.derate / 100)) else base

/-- `modules100` (src/script.js:711) with JavaScript semantics; this value is
interpolated into the suggested-layout output string. -/
def modules100Js (s : Settings) (rows : List Row) : JsNum :=
  jsMax (JsNum.fin 1) (jsCeil (jsDiv (nameplateAhJs s rows) (JsNum.fin 100)))

/-- The default settings of the app (12 V, LFP DoD 88 %, reserve 20 %, 2 days,
inverter efficiency 90 %, standby 6 W, derate 0 %). -/
def exSettings : Settings :=
  { voltage := 12, dod := 88, reserve := 20, days := 2, invEff := 90,
    invStandby := 6, derate := 0 }

/-- A single DC load drawing exactly 1000 Wh per day. -/
def thousandWhRows : List Row :=
  [{ type := LoadType.DC, entry := EntryMode.W, value := 1000,
     hAnchor := 1, hSail := 0, duty := 100, qty := 1 }]

/-- The 900 W microwave example: AC, watts entry, 0.17 h at anchor. -/
def microwaveRow : Row :=
  { type := LoadType.AC, entry := EntryMode.W, value := 900,
    hAnchor := 17 / 100, hSail := 0, duty := 100, qty := 1 }

/-- A DC load row whose value field holds a negative wattage, as a user can
type into the unclamped value input. -/
def negValueRow : Row :=
  { type := LoadType.DC, entry := EntryMode.W, value := -5,
    hAnchor := 1, hSail := 0, duty := 100, qty := 1 }

/-- A solar source with a negative panel wattage, as a snapshot or the
unclamped panel-wattage input can supply. -/
def negSolar : GenSource :=
  { type := GenType.Solar, qty := some 1, hours := some 1,
    panelW := some (-100), panels := some 1, sunHrs := some 1,
    deratePct := some 0, ctrlEffPct := some 100,
    ratedW := none, capacityPct := none, dcAmps := none, effPct := none }

/-- A row with quantity 0: it must contribute no energy. -/
def zeroQtyRow : Row :=
  { type := LoadType.DC, entry := EntryMode.W, value := 999,
    hAnchor := 7, hSail := 0, duty := 100, qty := 0 }

/-- An AC row with duty 0: zero load energy, but 5 raw anchor-hours that feed
the inverter-standby maximum. -/
def standbyOnlyRow : Row :=
  { type := LoadType.AC, entry := EntryMode.W, value := 100,
    hAnchor := 5, hSail := 0, duty := 0, qty := 1 }

/-- The default solar source (200 W × 2 panels, 4.5 sun-hours, 15 % derate,
96 % controller efficiency) with its quantity zeroed out. -/
def solarZeroQty : GenSource :=
  { type := GenType.Solar, qty := some 0, hours := some (9 / 2),
    panelW := some 200, panels := some 2, sunHrs := some (9 / 2),
    deratePct := some 15, ctrlEffPct := some 96,
    ratedW := none, capacityPct := none, dcAmps := none, effPct := none }

/-- The default settings with the system voltage set to 0. -/
def zeroVoltSettings : Settings :=
  { exSettings with voltage := 0 }

/-- A 2 W anchor light, 8 h at anchor: 16 Wh per day. -/
def dcLoadRow : Row :=
  { type := LoadType.DC, entry := EntryMode.W, value := 2,
    hAnchor := 8, hSail := 0, duty := 100, qty := 1 }

/-- Two-item breakdown used to instantiate the stacked-chart theorem. -/
def bdEx : List BDItem :=
  [{ label := "A", series := [3, 4] }, { label := "B", series := [1, 0] }]

/-- Totals series matching `bdEx` element-wise. -/
def totalsEx : List ℚ := [4, 4]

/-- C1.  The sizing pipeline of `recalc` (src/script.js:699-712) computes the
claimed chain: trip consumption is daily consumption times days with
generation excluded, the reserve factor is applied to the trip figure, DoD
scaling next, the derate divisor exactly when derate is positive, the
amp-hour nameplate is the watt-hour nameplate over the voltage, and the
module count is `max 1 ⌈nameplateAh / 100⌉`.  The code runs the chain in
amp-hours and converts; for clamped settings this agrees with the claimed
watt-hour chain.  The concrete instance of the claim: daily 1000 Wh, 2 days,
reserve 20, DoD 88, derate 0, 12 V gives 2400 Wh with reserve, 30000/11 Wh
(≈ 2727.27) nameplate, 2500/11 Ah (≈ 227.27) and 3 suggested modules. -/
theorem sizing_pipeline_spec :
    (∀ (s : Settings) (rows : List Row), s.Clamped →
      tripWh s rows = whDayTotal s rows * (s.days : ℚ) ∧
      withReserveWh s rows = tripWh s rows * (1 + s.reserve / 100) ∧
      nameplateWh s rows =
        (if 0 < s.derate
          then withReserveWh s rows / (s.dod / 100) / (1 - s.derate / 100)
          else withReserveWh s rows / (s.dod / 100)) ∧
      nameplateAh s rows = nameplateWh s rows / s.voltage ∧
      modules100 s rows = max 1 ⌈nameplateAh s rows / 100⌉) ∧
    (whDayTotal exSettings thousandWhRows = 1000 ∧
      tripWh exSettings thousandWhRows = 2000 ∧
      withReserveWh exSettings thousandWhRows = 2400 ∧
      nameplateWh exSettings thousandWhRows = 30000 / 11 ∧
      nameplateAh exSettings thousandWhRows = 2500 / 11 ∧
      modules100 exSettings thousandWhRows = 3) := by
  constructor
  · intro s rows hs
    have hv0 : s.voltage ≠ 0 := ne_of_gt hs.1
    refine ⟨rfl, ?_, ?_, ?_, rfl⟩
    · simp only [withReserveWh, withReserveAh, tripAh, ahDayTotal, tripWh]
      field_simp
      ring
    · by_cases hd : 0 < s.derate <;>
        simp only [nameplateWh, nameplateAh, withReserveWh, hd, if_true,
          if_false] <;>
        ring
    · simp only [nameplateWh]
      exact (mul_div_cancel_right₀ _ hv0).symm
  · norm_num +decide [modules100, nameplateWh, nameplateAh, withReserveWh,
      withReserveAh, tripAh, tripWh, ahDayTotal, whDayTotal, anchorWh, sailWh,
      standbyWhDay, rowWhAnchor, rowWhSail, rowWh, acAnchorHoursOf,
      acSailHoursOf, acAnchorStep, acSailStep, exSettings, thousandWhRows,
      Int.ceil_eq_iff]

/-- Witness for `sizing_pipeline_spec` at the default settings and the
1000 Wh per day row list. -/
theorem sizing_pipeline_spec_witness :
    tripWh exSettings thousandWhRows
        = whDayTotal exSettings thousandWhRows * ((exSettings.days : ℕ) : ℚ) ∧
      withReserveWh exSettings thousandWhRows
        = tripWh exSettings thousandWhRows * (1 + exSettings.reserve / 100) ∧
      nameplateWh exSettings thousandWhRows =
        (if 0 < exSettings.derate
          then withReserveWh exSettings thousandWhRows / (exSettings.dod / 100)
            / (1 - exSettings.derate / 100)
          else withReserveWh exSettings thousandWhRows / (exSettings.dod / 100)) ∧
      nameplateAh exSettings thousandWhRows
        = nameplateWh exSettings thousandWhRows / exSettings.voltage ∧
      modules100 exSettings thousandWhRows
        = max 1 ⌈nameplateAh exSettings thousandWhRows / 100⌉ :=
  sizing_pipeline_spec.1 exSettings thousandWhRows
    (by norm_num [Settings.Clamped, exSettings])

/-- C3 (code bug).  A negative value typed into the unclamped load-value
input produces a negative per-row energy and a negative daily consumption
total, and a negative panel wattage produces a negative per-source
generation energy — the code lacks the `max(0, ·)` guard the spec requires
on user-editable numeric fields. -/
theorem negative_value_negative_energy :
    rowWhAnchor exSettings negValueRow = -5 ∧
      rowWhAnchor exSettings negValueRow < 0 ∧
      whDayTotal exSettings [negValueRow] = -5 ∧
      genEntryWh negSolar 12 = -100 := by
  norm_num +decide [whDayTotal, anchorWh, sailWh, standbyWhDay, rowWhAnchor,
    rowWhSail, rowWh, acAnchorHoursOf, acSailHoursOf, acAnchorStep,
    acSailStep, genEntryWh, qtyOr1, exSettings, negValueRow, negSolar]

/-- C4.  For an AC row with positive effective hours, the energy is the
wattage (the value, or the value times the fixed nominal 120 V when entered
in amps) times the effective hours over the inverter-efficiency fraction;
in particular the 900 W microwave at 0.17 h, duty 100, qty 1, 90 %
efficiency yields 170 Wh per day. -/
theorem ac_row_energy_formula :
    (∀ (s : Settings) (r : Row) (hours : ℚ),
      r.type = LoadType.AC →
      0 < max 0 hours * max 0 (r.duty / 100) * r.qty →
      rowWh s r hours (r.duty / 100) r.qty =
        (if r.entry = EntryMode.W then r.value else r.value * 120) *
          (max 0 hours * max 0 (r.duty / 100) * r.qty) / (s.invEff / 100)) ∧
    rowWhAnchor exSettings microwaveRow = 170 := by
  constructor
  · intro s r hours hAC hpos
    simp only [rowWh]
    rw [if_neg (not_le.mpr hpos), if_pos hAC]
    by_cases he : r.entry = EntryMode.W <;> simp [he]
  · norm_num +decide [rowWhAnchor, rowWh, exSettings, microwaveRow]

/-- Witness for `ac_row_energy_formula` at the microwave example row. -/
theorem ac_row_energy_formula_witness :
    rowWh exSettings microwaveRow microwaveRow.hAnchor
        (microwaveRow.duty / 100) microwaveRow.qty =
      (if microwaveRow.entry = EntryMode.W
        then microwaveRow.value else microwaveRow.value * 120) *
        (max 0 microwaveRow.hAnchor * max 0 (microwaveRow.duty / 100) *
          microwaveRow.qty) / (exSettings.invEff / 100) :=
  ac_row_energy_formula.1 exSettings microwaveRow microwaveRow.hAnchor rfl
    (by norm_num [microwaveRow])

/-- C5.  A row with quantity 0, duty 0 or zero hours in a regime — in
general, nonpositive effective hours — contributes exactly 0 energy for that
regime, regardless of its type, entry mode and value. -/
theorem zero_effective_hours_zero_energy :
    ∀ (s : Settings) (r : Row) (hours : ℚ),
      (r.qty = 0 ∨ r.duty = 0 ∨ hours = 0 ∨
        max 0 hours * max 0 (r.duty / 100) * r.qty ≤ 0) →
      rowWh s r hours (r.duty / 100) r.qty = 0 := by
  intro s r hours h
  have hle : max 0 hours * max 0 (r.duty / 100) * r.qty ≤ 0 := by
    rcases h with h | h | h | h
    · rw [h, mul_zero]
    · rw [h]; norm_num
    · rw [h]; norm_num
    · exact h
  simp only [rowWh]
  rw [if_pos hle]

/-- Witness for `zero_effective_hours_zero_energy` at a quantity-0 row. -/
theorem zero_effective_hours_zero_energy_witness :
    rowWh exSettings zeroQtyRow 7 (zeroQtyRow.duty / 100) zeroQtyRow.qty = 0 :=
  zero_effective_hours_zero_energy exSettings zeroQtyRow 7 (Or.inl rfl)

/-- The running anchor-hours maximum over all rows equals a plain `max` fold
over the anchor-hours of the AC rows only. -/
lemma foldl_acAnchorStep_eq (rows : List Row) :
    ∀ acc : ℚ,
      rows.foldl acAnchorStep acc =
        ((rows.filter fun r => decide (r.type = LoadType.AC)).map
          Row.hAnchor).foldl max acc := by
  induction rows with
  | nil => intro acc; rfl
  | cons r rest ih =>
      intro acc
      by_cases hr : r.type = LoadType.AC <;>
        simp [List.filter_cons, hr, acAnchorStep, ih]

/-- The running underway-hours maximum over all rows equals a plain `max`
fold over the underway-hours of the AC rows only. -/
lemma foldl_acSailStep_eq (rows : List Row) :
    ∀ acc : ℚ,
      rows.foldl acSailStep acc =
        ((rows.filter fun r => decide (r.type = LoadType.AC)).map
          Row.hSail).foldl max acc := by
  induction rows with
  | nil => intro acc; rfl
  | cons r rest ih =>
      intro acc
      by_cases hr : r.type = LoadType.AC <;>
        simp [List.filter_cons, hr, acSailStep, ih]

/-- Each step of the anchor-hours maximum never decreases the accumulator. -/
lemma le_foldl_acAnchorStep (rows : List Row) :
    ∀ acc : ℚ, acc ≤ rows.foldl acAnchorStep acc := by
  induction rows with
  | nil => intro acc; exact le_refl acc
  | cons r rest ih =>
      intro acc
      refine le_trans ?_ (ih (acAnchorStep acc r))
      unfold acAnchorStep
      by_cases hr : r.type = LoadType.AC <;> simp [hr]

/-- Each step of the underway-hours maximum never decreases the
accumulator. -/
lemma le_foldl_acSailStep (rows : List Row) :
    ∀ acc : ℚ, acc ≤ rows.foldl acSailStep acc := by
  induction rows with
  | nil => intro acc; exact le_refl acc
  | cons r rest ih =>
      intro acc
      refine le_trans ?_ (ih (acSailStep acc r))
      unfold acSailStep
      by_cases hr : r.type = LoadType.AC <;> simp [hr]

/-- The anchor-hours maximum only reads each row through its type and its
raw anchor-hours field. -/
lemma foldl_acAnchorStep_map (f : Row → Row)
    (hf : ∀ r : Row, (f r).type = r.type ∧ (f r).hAnchor = r.hAnchor)
    (rows : List Row) :
    ∀ acc : ℚ, (rows.map f).foldl acAnchorStep acc = rows.foldl acAnchorStep acc := by
  induction rows with
  | nil => intro acc; rfl
  | cons r rest ih =>
      intro acc
      have hstep : acAnchorStep acc (f r) = acAnchorStep acc r := by
        unfold acAnchorStep
        rw [(hf r).1, (hf r).2]
      simp only [List.map_cons, List.foldl_cons, hstep, ih]

/-- The underway-hours maximum only reads each row through its type and its
raw underway-hours field. -/
lemma foldl_acSailStep_map (f : Row → Row)
    (hf : ∀ r : Row, (f r).type = r.type ∧ (f r).hSail = r.hSail)
    (rows : List Row) :
    ∀ acc : ℚ, (rows.map f).foldl acSailStep acc = rows.foldl acSailStep acc := by
  induction rows with
  | nil => intro acc; rfl
  | cons r rest ih =>
      intro acc
      have hstep : acSailStep acc (f r) = acSailStep acc r := by
        unfold acSailStep
        rw [(hf r).1, (hf r).2]
      simp only [List.map_cons, List.foldl_cons, hstep, ih]

/-- C2.  The daily inverter-standby energy is `invStandby` times the sum of
the two per-regime maxima of hours over the AC rows (a fold of `max` from 0
over the AC rows only, not a sum over rows), and it is zero when there are
no AC rows. -/
theorem standby_regime_maxima :
    ∀ (s : Settings) (rows : List Row),
      (standbyWhDay s rows = s.invStandby *
        (((rows.filter fun r => decide (r.type = LoadType.AC)).map
            Row.hAnchor).foldl max 0 +
          ((rows.filter fun r => decide (r.type = LoadType.AC)).map
            Row.hSail).foldl max 0)) ∧
      ((rows.filter fun r => decide (r.type = LoadType.AC)) = [] →
        standbyWhDay s rows = 0) := by
  intro s rows
  have hA := foldl_acAnchorStep_eq rows 0
  have hS := foldl_acSailStep_eq rows 0
  constructor
  · simp only [standbyWhDay, acAnchorHoursOf, acSailHoursOf, hA, hS]
  · intro hnil
    simp [standbyWhDay, acAnchorHoursOf, acSailHoursOf, hA, hS, hnil]

/-- Witness for `standby_regime_maxima`: a list with a single DC row has no
AC rows, so the standby energy is 0. -/
theorem standby_regime_maxima_witness :
    standbyWhDay exSettings [dcLoadRow] = 0 :=
  (standby_regime_maxima exSettings [dcLoadRow]).2 (by simp [dcLoadRow])

/-- C9.  The per-regime standby maxima start at 0, never decrease when a row
is appended, read an AC row through its raw hours fields only (so duty,
quantity and value are irrelevant to them), and a duty-0 AC row that
contributes 0 Wh of load energy still raises the standby energy: with the
default 6 W standby and 5 raw anchor-hours it adds 30 Wh per day. -/
theorem standby_counts_raw_ac_hours :
    (∀ rows : List Row, 0 ≤ acAnchorHoursOf rows ∧ 0 ≤ acSailHoursOf rows) ∧
    (∀ (rows : List Row) (r : Row), r.type = LoadType.AC →
      acAnchorHoursOf (rows ++ [r]) = max (acAnchorHoursOf rows) r.hAnchor ∧
      acSailHoursOf (rows ++ [r]) = max (acSailHoursOf rows) r.hSail) ∧
    (∀ (rows : List Row) (r : Row),
      acAnchorHoursOf rows ≤ acAnchorHoursOf (rows ++ [r]) ∧
      acSailHoursOf rows ≤ acSailHoursOf (rows ++ [r])) ∧
    (∀ (rows : List Row) (f : Row → Row),
      (∀ r : Row, (f r).type = r.type ∧ (f r).hAnchor = r.hAnchor ∧
        (f r).hSail = r.hSail) →
      acAnchorHoursOf (rows.map f) = acAnchorHoursOf rows ∧
      acSailHoursOf (rows.map f) = acSailHoursOf rows) ∧
    (rowWhAnchor exSettings standbyOnlyRow = 0 ∧
      rowWhSail exSettings standbyOnlyRow = 0 ∧
      standbyWhDay exSettings [standbyOnlyRow] = 30) := by
  refine ⟨?_, ?_, ?_, ?_, ?_⟩
  · intro rows
    exact ⟨le_foldl_acAnchorStep rows 0, le_foldl_acSailStep rows 0⟩
  · intro rows r hr
    constructor <;>
      simp [acAnchorHoursOf, acSailHoursOf, List.foldl_append,
        acAnchorStep, acSailStep, hr]
  · intro rows r
    constructor
    · simp only [acAnchorHoursOf, List.foldl_append]
      exact le_foldl_acAnchorStep [r] _
    · simp only [acSailHoursOf, List.foldl_append]
      exact le_foldl_acSailStep [r] _
  · intro rows f hf
    exact ⟨foldl_acAnchorStep_map f (fun r => ⟨(hf r).1, (hf r).2.1⟩) rows 0,
      foldl_acSailStep_map f (fun r => ⟨(hf r).1, (hf r).2.2⟩) rows 0⟩
  · norm_num +decide [rowWhAnchor, rowWhSail, rowWh, standbyWhDay,
      acAnchorHoursOf, acSailHoursOf, acAnchorStep, acSailStep, exSettings,
      standbyOnlyRow]

/-- Witness for `standby_counts_raw_ac_hours`: appending the duty-0 AC row
to the empty list sets the anchor maximum to its raw 5 hours. -/
theorem standby_counts_raw_ac_hours_witness :
    acAnchorHoursOf ([] ++ [standbyOnlyRow])
        = max (acAnchorHoursOf []) standbyOnlyRow.hAnchor ∧
      acSailHoursOf ([] ++ [standbyOnlyRow])
        = max (acSailHoursOf []) standbyOnlyRow.hSail :=
  standby_counts_raw_ac_hours.2.1 [] standbyOnlyRow rfl

/-- Rounding to one decimal keeps a value of `[0, 100]` inside `[0, 100]`. -/
lemma round1_mem_Icc (x : ℚ) (h0 : 0 ≤ x) (h100 : x ≤ 100) :
    0 ≤ round1 x ∧ round1 x ≤ 100 := by
  unfold round1
  have hlo : 0 ≤ round (10 * x) := by
    rw [round_eq]
    exact Int.floor_nonneg.mpr (by linarith)
  have hhi : round (10 * x) ≤ 1000 := by
    rw [round_eq]
    have h1 : (10 * x + 1 / 2 : ℚ) ≤ 2001 / 2 := by linarith
    have h2 : ⌊(2001 : ℚ) / 2⌋ = 1000 := by
      rw [Int.floor_eq_iff]
      norm_num
    calc ⌊10 * x + 1 / 2⌋ ≤ ⌊(2001 : ℚ) / 2⌋ := Int.floor_le_floor h1
      _ = 1000 := h2
  constructor
  · have : (0 : ℚ) ≤ ((round (10 * x) : ℤ) : ℚ) := by exact_mod_cast hlo
    linarith
  · have : ((round (10 * x) : ℤ) : ℚ) ≤ 1000 := by exact_mod_cast hhi
    linarith

/-- Every value emitted by the SOC loop lies in `[0, 100]`, for any starting
level. -/
lemma socSeriesAux_mem_Icc (bank : ℚ) :
    ∀ (net : List ℚ) (level x : ℚ),
      x ∈ socSeriesAux bank level net → 0 ≤ x ∧ x ≤ 100 := by
  intro net
  induction net with
  | nil => intro level x hx; simp [socSeriesAux] at hx
  | cons d rest ih =>
      intro level x hx
      simp only [socSeriesAux, List.mem_cons] at hx
      rcases hx with hx | hx
      · subst hx
        refine round1_mem_Icc _ (le_max_left _ _) (max_le (by norm_num) ?_)
        exact min_le_left _ _
      · exact ih (level + d) x hx

/-- The SOC loop emits exactly one value per day of net series. -/
lemma socSeriesAux_length (bank : ℚ) :
    ∀ (net : List ℚ) (level : ℚ),
      (socSeriesAux bank level net).length = net.length := by
  intro net
  induction net with
  | nil => intro level; rfl
  | cons d rest ih => intro level; simp [socSeriesAux, ih]

/-- C6 counterexample.  With a 1000 Wh bank and a single day of net
−1.44 Wh, the running level is 998.56 and the clamped percentage is
99.856 %, but the code emits that value rounded to one decimal, 99.9 % —
not the clamp value the claim states. -/
theorem soc_rounding_counterexample :
    socSeries 1000 [-(36 / 25)] = [999 / 10] ∧
      max 0 (min 100 (((1000 : ℚ) + -(36 / 25)) / 1000 * 100)) = 12482 / 125 ∧
      (999 / 10 : ℚ) ≠ 12482 / 125 := by
  norm_num [socSeries, socSeriesAux, round1, round_eq]

/-- C6 (amended).  For a positive bank the SOC projector emits exactly one
percentage per day, each obtained by accumulating the daily net into the
running level and clamping `level / bank × 100` into `[0, 100]` and then
rounding it to one decimal place; every emitted value lies in `[0, 100]`,
and the example bank 1000 with nets −200, −200, +500 yields 80 %, 60 %,
100 %. -/
theorem soc_projection_amended :
    (∀ (bank : ℚ) (net : List ℚ), 0 < bank →
      renderSoc bank net = some (socSeries bank net) ∧
      (socSeries bank net).length = net.length ∧
      ∀ x ∈ socSeries bank net, 0 ≤ x ∧ x ≤ 100) ∧
    socSeries 1000 [-200, -200, 500] = [80, 60, 100] := by
  constructor
  · intro bank net hb
    refine ⟨by simp [renderSoc, hb], socSeriesAux_length bank net bank, ?_⟩
    intro x hx
    exact socSeriesAux_mem_Icc bank net bank x hx
  · norm_num [socSeries, socSeriesAux, round1, round_eq]

/-- Witness for `soc_projection_amended` at bank 1000 and the example
three-day net series. -/
theorem soc_projection_amended_witness :
    renderSoc 1000 [-200, -200, 500]
        = some (socSeries 1000 [-200, -200, 500]) ∧
      (socSeries 1000 [-200, -200, 500]).length
        = ([-200, -200, 500] : List ℚ).length ∧
      ∀ x ∈ socSeries 1000 [-200, -200, 500], 0 ≤ x ∧ x ≤ 100 :=
  soc_projection_amended.1 1000 [-200, -200, 500] (by norm_num)

/-- C10.  A generation source whose quantity is missing or zero (falsy in
JS) is computed exactly as if the quantity were 1. -/
theorem gen_falsy_qty_one :
    ∀ (e : GenSource) (v : ℚ), (e.qty = none ∨ e.qty = some 0) →
      genEntryWh e v = genEntryWh { e with qty := some 1 } v := by
  intro e v h
  have hq : qtyOr1 e.qty = 1 := by
    rcases h with h | h <;> rw [h] <;> simp [qtyOr1]
  cases e with
  | mk type qty hours panelW panels sunHrs deratePct ctrlEffPct ratedW
      capacityPct dcAmps effPct =>
      cases type <;> simp_all [genEntryWh, qtyOr1]

/-- Witness for `gen_falsy_qty_one`: the default solar source with quantity
zeroed still yields its full 1468.8 Wh per day. -/
theorem gen_falsy_qty_one_witness :
    genEntryWh solarZeroQty 12
        = genEntryWh { solarZeroQty with qty := some 1 } 12 ∧
      genEntryWh solarZeroQty 12 = 7344 / 5 :=
  ⟨gen_falsy_qty_one solarZeroQty 12 (Or.inr rfl),
    by norm_num [genEntryWh, qtyOr1, solarZeroQty]⟩

/-- Splitting a list by a Boolean predicate splits the sum of any rational
projection. -/
lemma filter_partition_sum (p : BDItem → Bool) (f : BDItem → ℚ) :
    ∀ l : List BDItem,
      ((l.filter p).map f).sum + ((l.filter fun b => !(p b)).map f).sum
        = (l.map f).sum := by
  intro l
  induction l with
  | nil => simp
  | cons a l ih =>
      cases hp : p a <;> simp [List.filter_cons, hp] <;> linarith [ih]

/-- The minor contributors are exactly the non-major ones. -/
lemma minorsOf_eq_filter_not (breakdown : List BDItem) (totals : List ℚ)
    (t : ℚ) :
    minorsOf breakdown totals t
      = breakdown.filter fun b => !(decide (t ≤ shareOf totals b)) := by
  unfold minorsOf
  apply List.filter_congr
  intro b _
  by_cases h : t ≤ shareOf totals b
  · simp [h, not_lt.mpr h]
  · simp [h, lt_of_not_le h]

/-- The minors list is nonempty exactly when some item falls below the
threshold. -/
lemma minorsOf_ne_nil_iff (breakdown : List BDItem) (totals : List ℚ)
    (t : ℚ) :
    minorsOf breakdown totals t ≠ [] ↔
      ∃ b ∈ breakdown, shareOf totals b < t := by
  unfold minorsOf
  constructor
  · intro h
    rcases List.exists_mem_of_ne_nil _ h with ⟨b, hb⟩
    rcases List.mem_filter.mp hb with ⟨hmem, hlt⟩
    exact ⟨b, hmem, by simpa using hlt⟩
  · rintro ⟨b, hmem, hlt⟩ hnil
    have : b ∈ ([] : List BDItem) := by
      rw [← hnil]
      exact List.mem_filter.mpr ⟨hmem, by simpa using hlt⟩
    simp at this

/-- Inside its length, the aggregated "Other" series evaluates to the sum of
the minors at that day. -/
lemma otherSeries_getD (minors : List BDItem) (L i : ℕ) (hi : i < L) :
    (otherSeries minors L).getD i 0
      = (minors.map fun m => m.series.getD i 0).sum := by
  unfold otherSeries
  have hlen : i < ((List.range L).map fun j =>
      (minors.map fun m => m.series.getD j 0).sum).length := by
    simpa using hi
  rw [List.getD_eq_getElem _ _ hlen]
  simp

/-- C7.  For every breakdown, totals series and threshold, at each day index
within the series length the emitted stacked entries (the kept majors plus
the element-wise-summed "Other") sum to the same value as the input series,
and an "Other" entry is appended — making the emitted list one longer than
the majors — exactly when the share of at least one item is
below the threshold. -/
theorem stacked_breakdown_complete :
    ∀ (breakdown : List BDItem) (totals : List ℚ) (t : ℚ),
      0 ≤ t → t ≤ 1 → ∀ i : ℕ, i < totals.length →
      (((combinedOf breakdown totals t).map fun b => b.series.getD i 0).sum
          = (breakdown.map fun b => b.series.getD i 0).sum) ∧
      ((combinedOf breakdown totals t).length
          = (majorsOf breakdown totals t).length
            + (if ∃ b ∈ breakdown, shareOf totals b < t then 1 else 0)) := by
  intro breakdown totals t ht0 ht1 i hi
  have hpart := filter_partition_sum
    (fun b => decide (t ≤ shareOf totals b))
    (fun b => b.series.getD i 0) breakdown
  rw [← minorsOf_eq_filter_not] at hpart
  by_cases hm : minorsOf breakdown totals t = []
  · have hex : ¬ ∃ b ∈ breakdown, shareOf totals b < t := by
      rw [← minorsOf_ne_nil_iff breakdown totals t]
      simp [hm]
    constructor
    · simp only [combinedOf, hm, if_pos]
      have : ((minorsOf breakdown totals t).map
          fun b => b.series.getD i 0).sum = 0 := by
        rw [hm]; rfl
      rw [this, add_zero] at hpart
      exact hpart
    · simp [combinedOf, majorsOf, hm, hex]
  · have hex : ∃ b ∈ breakdown, shareOf totals b < t :=
      (minorsOf_ne_nil_iff breakdown totals t).mp hm
    constructor
    · simp only [combinedOf, hm, if_neg, if_false, List.map_append,
        List.sum_append, List.map_cons, List.map_nil, List.sum_cons,
        List.sum_nil, add_zero]
      rw [otherSeries_getD _ _ _ hi]
      exact hpart
    · simp [combinedOf, majorsOf, hm, hex]

/-- Witness for `stacked_breakdown_complete` at day 0 of a two-day, two-item
breakdown with threshold one half, where item B is a minor contributor. -/
theorem stacked_breakdown_complete_witness :
    (((combinedOf bdEx totalsEx (1 / 2)).map fun b => b.series.getD 0 0).sum
        = (bdEx.map fun b => b.series.getD 0 0).sum) ∧
      ((combinedOf bdEx totalsEx (1 / 2)).length
        = (majorsOf bdEx totalsEx (1 / 2)).length
          + (if ∃ b ∈ bdEx, shareOf totalsEx b < 1 / 2 then 1 else 0)) :=
  stacked_breakdown_complete bdEx totalsEx (1 / 2) (by norm_num) (by norm_num)
    0 (by norm_num [totalsEx])

/-- With the voltage zeroed, the finite daily consumption of the 2 W anchor
light is 16 Wh. -/
lemma whDayTotal_zeroVolt : whDayTotal zeroVoltSettings [dcLoadRow] = 16 := by
  norm_num +decide [whDayTotal, anchorWh, sailWh, standbyWhDay, rowWhAnchor,
    rowWhSail, rowWh, acAnchorHoursOf, acSailHoursOf, acAnchorStep,
    acSailStep, zeroVoltSettings, exSettings, dcLoadRow]

/-- Dividing the finite 16 Wh by the zero voltage yields positive
infinity. -/
lemma ahDayTotalJs_zeroVolt :
    ahDayTotalJs zeroVoltSettings [dcLoadRow] = JsNum.posInf := by
  rw [ahDayTotalJs, whDayTotal_zeroVolt]
  norm_num [jsDiv, zeroVoltSettings, exSettings]

/-- The infinity propagates through the whole amp-hour sizing chain. -/
lemma nameplateAhJs_zeroVolt :
    nameplateAhJs zeroVoltSettings [dcLoadRow] = JsNum.posInf := by
  rw [nameplateAhJs, withReserveAhJs, tripAhJs, ahDayTotalJs_zeroVolt]
  norm_num [jsMul, jsDiv, zeroVoltSettings, exSettings]

/-- The suggested module count, interpolated into the layout output string,
is positive infinity. -/
lemma modules100Js_zeroVolt :
    modules100Js zeroVoltSettings [dcLoadRow] = JsNum.posInf := by
  rw [modules100Js, nameplateAhJs_zeroVolt]
  norm_num [jsMax, jsCeil, jsDiv]

/-- C8 counterexample.  When the unclamped voltage input is 0, the division
`whDayTotal / voltage` in `recalc` produces Infinity, which flows through
`tripAh`, `withReserveAh` and `nameplateAh` into the suggested module count
of the output model instead of being reported as unavailable. -/
theorem zero_voltage_infinity_counterexample :
    zeroVoltSettings.voltage = 0 ∧
      whDayTotal zeroVoltSettings [dcLoadRow] = 16 ∧
      ahDayTotalJs zeroVoltSettings [dcLoadRow] = JsNum.posInf ∧
      nameplateAhJs zeroVoltSettings [dcLoadRow] = JsNum.posInf ∧
      modules100Js zeroVoltSettings [dcLoadRow] = JsNum.posInf :=
  ⟨rfl, whDayTotal_zeroVolt, ahDayTotalJs_zeroVolt, nameplateAhJs_zeroVolt,
    modules100Js_zeroVolt⟩

/-- C8 (amended).  A nonpositive bank energy reaching the SOC projection is
reported unavailable — `renderSoc` emits no values — but a zero voltage
reaching the watt-hour-to-amp-hour conversions is not: the derived amp-hour
sizing quantities and the suggested module count become Infinity in the
output model. -/
theorem divide_by_zero_amended :
    (∀ (bank : ℚ) (net : List ℚ), bank ≤ 0 → renderSoc bank net = none) ∧
      modules100Js zeroVoltSettings [dcLoadRow] = JsNum.posInf := by
  constructor
  · intro bank net hb
    simp [renderSoc, not_lt.mpr hb]
  · exact modules100Js_zeroVolt

/-- Witness for `divide_by_zero_amended` at bank 0. -/
theorem divide_by_zero_amended_witness :
    renderSoc 0 [-200] = none :=
  divide_by_zero_amended.1 0 [-200] le_rfl

end BoatPower
